import Mathlib

/-!
Shallow embedding of the 3-vector / 3x3-matrix algebra layer of RocketPy
(`src/rocketpy/tools.py`, classes `Vector` and `Matrix`).  Numeric components
are modelled as exact rationals (`ℚ`); the Euclidean magnitude, which the
source computes as `(x**2 + y**2 + z**2) ** 0.5`, is modelled in `ℝ` via
`Real.sqrt`.  Fallible operations (Python exceptions) are modelled with
`Option`: `Matrix.inverse` raises `ZeroDivisionError` exactly when its
determinant is zero, and the duck-typed `Matrix.__eq__` raises `IndexError`
when an inner row of the right operand is too short.
-/

namespace RocketPy

/-- The absolute tolerance `1e-9` used by `Vector.__eq__`, `Matrix.__eq__`
and `Vector.is_orthogonal_to` in the source. -/
def eqTol : ℚ := 1 / 1000000000

/-- The default tolerance `1e-6` used by `Matrix.is_diagonal`. -/
def diagTol : ℚ := 1 / 1000000

/-- Source `cmath.isclose(a, b, rel_tol=0, abs_tol=1e-9)` for real arguments:
`abs(a - b) <= 1e-9`. -/
def isclose (a b : ℚ) : Bool :=
  decide (|a - b| ≤ eqTol)

/-- Source `Vector`: immutable R3 vector with components `x, y, z`
(`tools.py`, class `Vector`). -/
structure Vector where
  x : ℚ
  y : ℚ
  z : ℚ
deriving DecidableEq, Repr

/-- Source `Matrix`: immutable 3x3 matrix with row-major components
`xx … zz` (`tools.py`, class `Matrix`). -/
structure Matrix where
  xx : ℚ
  xy : ℚ
  xz : ℚ
  yx : ℚ
  yy : ℚ
  yz : ℚ
  zx : ℚ
  zy : ℚ
  zz : ℚ
deriving DecidableEq, Repr

/-- Source `Vector.zeros()`: the zero vector. -/
def Vector.zeros : Vector := ⟨0, 0, 0⟩

/-- Source `Vector.__neg__`: `-1` times the vector. -/
def Vector.neg (v : Vector) : Vector := ⟨-v.x, -v.y, -v.z⟩

/-- Source `Vector.__xor__` (= `Vector.cross`): cross product between self and
other, with the source's exact component expressions. -/
def Vector.cross (u v : Vector) : Vector :=
  ⟨u.y * v.z - u.z * v.y, -(u.x * v.z) + u.z * v.x, u.x * v.y - u.y * v.x⟩

/-- Source `Vector.__matmul__` (= `Vector.dot`): dot product between two R3
vectors. -/
def Vector.dot (u v : Vector) : ℚ :=
  u.x * v.x + u.y * v.y + u.z * v.z

/-- Source `Vector.__abs__`: the magnitude `(x**2 + y**2 + z**2) ** 0.5`, modelled
over the reals. -/
noncomputable def Vector.magnitude (v : Vector) : ℝ :=
  Real.sqrt ((v.x : ℝ) ^ 2 + (v.y : ℝ) ^ 2 + (v.z : ℝ) ^ 2)

/-- Source `Vector.cross_matrix`: the skew-symmetric matrix
`[[0, -z, y], [z, 0, -x], [-y, x, 0]]`. -/
def Vector.cross_matrix (v : Vector) : Matrix :=
  ⟨0, -v.z, v.y, v.z, 0, -v.x, -v.y, v.x, 0⟩

/-- Source `Vector.__eq__`: duck-typed tolerance equality against any sequence:
`len(other) == 3 and isclose(x, other[0], …) and …`.  A Python sequence of
numbers is modelled as `List ℚ`. -/
def Vector.eqList (v : Vector) (s : List ℚ) : Bool :=
  match s with
  | [a, b, c] => isclose v.x a && isclose v.y b && isclose v.z c
  | _ => false

/-- Source `Matrix.identity()`: the 3x3 identity matrix. -/
def Matrix.identity : Matrix := ⟨1, 0, 0, 0, 1, 0, 0, 0, 1⟩

/-- Source `Matrix.zeros()`: the 3x3 zero matrix. -/
def Matrix.zeros : Matrix := ⟨0, 0, 0, 0, 0, 0, 0, 0, 0⟩

/-- Source `Matrix.__abs__` (= `Matrix.det`): determinant via the source's cofactor
expressions `ixx`, `iyx`, `izx` along the first row. -/
def Matrix.det (A : Matrix) : ℚ :=
  A.xx * (A.yy * A.zz - A.zy * A.yz) + A.xy * (A.zx * A.yz - A.yx * A.zz) +
    A.xz * (A.yx * A.zy - A.zx * A.yy)

/-- Source `Matrix.is_diagonal`: `False` iff some off-diagonal entry has absolute
value strictly greater than the tolerance `1e-6` (the loop visits the six
off-diagonal positions). -/
def Matrix.is_diagonal (A : Matrix) : Bool :=
  !(decide (|A.xy| > diagTol)) && !(decide (|A.xz| > diagTol)) &&
  !(decide (|A.yx| > diagTol)) && !(decide (|A.yz| > diagTol)) &&
  !(decide (|A.zx| > diagTol)) && !(decide (|A.zy| > diagTol))

/-- Source `Matrix.inverse`: the nine cofactors divided by the determinant, laid out
as in the source (`[[ixx, ixy, ixz], [iyx, iyy, iyz], [izx, izy, izz]] / det`);
the local `det` of the source is the same expression as `Matrix.det`.
`none` models the `ZeroDivisionError` raised when the determinant is zero. -/
def Matrix.inverse (A : Matrix) : Option Matrix :=
  if A.det = 0 then none
  else some
    ⟨(A.yy * A.zz - A.zy * A.yz) / A.det, (A.zy * A.xz - A.xy * A.zz) / A.det,
     (A.xy * A.yz - A.yy * A.xz) / A.det,
     (A.zx * A.yz - A.yx * A.zz) / A.det, (A.xx * A.zz - A.zx * A.xz) / A.det,
     (A.yx * A.xz - A.yz * A.xx) / A.det,
     (A.yx * A.zy - A.zx * A.yy) / A.det, (A.zx * A.xy - A.xx * A.zy) / A.det,
     (A.xx * A.yy - A.yx * A.xy) / A.det⟩

/-- Source `Matrix.__matmul__`, Vector branch: matrix-vector product. -/
def Matrix.matmulV (A : Matrix) (v : Vector) : Vector :=
  ⟨A.xx * v.x + A.xy * v.y + A.xz * v.z,
   A.yx * v.x + A.yy * v.y + A.yz * v.z,
   A.zx * v.x + A.zy * v.y + A.zz * v.z⟩

/-- Source `Matrix.__matmul__`, Matrix branch: matrix-matrix product with the
source's explicit nine entry expressions. -/
def Matrix.matmulM (A B : Matrix) : Matrix :=
  ⟨A.xx * B.xx + A.xy * B.yx + A.xz * B.zx,
   A.xx * B.xy + A.xy * B.yy + A.xz * B.zy,
   A.xx * B.xz + A.xy * B.yz + A.xz * B.zz,
   A.yx * B.xx + A.yy * B.yx + A.yz * B.zx,
   A.yx * B.xy + A.yy * B.yy + A.yz * B.zy,
   A.yx * B.xz + A.yy * B.yz + A.yz * B.zz,
   A.zx * B.xx + A.zy * B.yx + A.zz * B.zx,
   A.zx * B.xy + A.zy * B.yy + A.zz * B.zy,
   A.zx * B.xz + A.zy * B.yz + A.zz * B.zz⟩

/-- The runtime kind of the right operand of `Matrix.__matmul__`:
a `Vector`, a `Matrix`, or any other object. -/
inductive MatMulArg where
  | vecArg : Vector → MatMulArg
  | matArg : Matrix → MatMulArg
  | otherArg : MatMulArg
deriving DecidableEq

/-- The outcome of `Matrix.__matmul__`: a `Vector`, a `Matrix`, or the
`TypeError("Can only dot product with Matrix or Vector.")`. -/
inductive MatMulRes where
  | vecRes : Vector → MatMulRes
  | matRes : Matrix → MatMulRes
  | typeError : MatMulRes
deriving DecidableEq

/-- Source `Matrix.__matmul__`: dispatch on the runtime kind of the operand,
`isinstance(other, Vector)` first, then `isinstance(other, Matrix)`,
else `TypeError`. -/
def Matrix.matmul (A : Matrix) : MatMulArg → MatMulRes
  | .vecArg v => .vecRes (A.matmulV v)
  | .matArg B => .matRes (A.matmulM B)
  | .otherArg => .typeError

/-- Source `Matrix.__pow__`: `result = identity; for _ in range(other): result = result @ self`.
The exponent is an arbitrary integer; `range(n)` is empty for `n ≤ 0`. -/
def Matrix.pow (A : Matrix) (n : ℤ) : Matrix :=
  (List.range n.toNat).foldl (fun acc _ => acc.matmulM A) Matrix.identity

/-- Source `Matrix.__eq__` when the right operand is another `Matrix`: all indexing
succeeds and the result is the conjunction of the nine `isclose` checks. -/
def Matrix.eqMat (A B : Matrix) : Bool :=
  isclose A.xx B.xx && isclose A.xy B.xy && isclose A.xz B.xz &&
  isclose A.yx B.yx && isclose A.yy B.yy && isclose A.yz B.yz &&
  isclose A.zx B.zx && isclose A.zy B.zy && isclose A.zz B.zz

/-- One step of the short-circuiting `and` chain of `Matrix.__eq__`:
fetch `other[i][j]` (`none` models the `IndexError` when the row is too
short), compare, and continue only on success. -/
def andIsclose (a : ℚ) (o : Option ℚ) (rest : Option Bool) : Option Bool :=
  match o with
  | none => none
  | some b => if isclose a b then rest else some false

/-- Source `Matrix.__eq__` against an arbitrary nested sequence (`List (List ℚ)`):
`len(other) == 3` first, then the nine `isclose(self[i][j], other[i][j])`
checks in source order, short-circuiting like Python's `and`. -/
def Matrix.eqList (A : Matrix) (s : List (List ℚ)) : Option Bool :=
  match s with
  | [r0, r1, r2] =>
    andIsclose A.xx r0[0]? (andIsclose A.xy r0[1]? (andIsclose A.xz r0[2]?
      (andIsclose A.yx r1[0]? (andIsclose A.yy r1[1]? (andIsclose A.yz r1[2]?
        (andIsclose A.zx r2[0]? (andIsclose A.zy r2[1]? (andIsclose A.zz r2[2]?
          (some true)))))))))
  | _ => some false

/-- Source `Matrix.transformation(quaternion)`: the quaternion-to-rotation-matrix
construction, entry for entry as in the source. -/
def Matrix.transformation (q : ℚ × ℚ × ℚ × ℚ) : Matrix :=
  match q with
  | (qw, qx, qy, qz) =>
    ⟨1 - 2 * (qy ^ 2 + qz ^ 2), 2 * (qx * qy - qw * qz), 2 * (qx * qz + qw * qy),
     2 * (qx * qy + qw * qz), 1 - 2 * (qx ^ 2 + qz ^ 2), 2 * (qy * qz - qw * qx),
     2 * (qx * qz - qw * qy), 2 * (qy * qz + qw * qx), 1 - 2 * (qx ^ 2 + qy ^ 2)⟩

/-- Entry accessor for the refinement statement about the standard matrix
product: `A.entry i j` is the component in row `i`, column `j`. -/
def Matrix.entry (A : Matrix) : Fin 3 → Fin 3 → ℚ
  | 0, 0 => A.xx
  | 0, 1 => A.xy
  | 0, 2 => A.xz
  | 1, 0 => A.yx
  | 1, 1 => A.yy
  | 1, 2 => A.yz
  | 2, 0 => A.zx
  | 2, 1 => A.zy
  | 2, 2 => A.zz

/-- Build a `Matrix` from an entry function. -/
def Matrix.ofFn (f : Fin 3 → Fin 3 → ℚ) : Matrix :=
  ⟨f 0 0, f 0 1, f 0 2, f 1 0, f 1 1, f 1 2, f 2 0, f 2 1, f 2 2⟩

/-- Entry accessor for vectors. -/
def Vector.entry (v : Vector) : Fin 3 → ℚ
  | 0 => v.x
  | 1 => v.y
  | 2 => v.z

/-- Build a `Vector` from an entry function. -/
def Vector.ofFn (f : Fin 3 → ℚ) : Vector :=
  ⟨f 0, f 1, f 2⟩

/-- Spec-side definition ("the standard 3x3 matrix product"):
entry `(i, j)` is `∑ k, A i k * B k j`. -/
def matProdStd (A B : Matrix) : Matrix :=
  Matrix.ofFn fun i j => ∑ k : Fin 3, A.entry i k * B.entry k j

/-- Spec-side definition ("the matrix-vector product"): entry `i` is
`∑ k, A i k * v k`. -/
def matVecStd (A : Matrix) (v : Vector) : Vector :=
  Vector.ofFn fun i => ∑ k : Fin 3, A.entry i k * v.entry k

/-- Claim C1: for every vector `u` and every vector `v`, the matrix-vector
product `u.cross_matrix @ v` equals the cross product `u.cross(v)`. -/
theorem cross_matrix_matmul_eq_cross (u v : Vector) :
    u.cross_matrix.matmulV v = u.cross v := by
  cases u with
  | mk ux uy uz =>
    cases v with
    | mk vx vy vz =>
      simp only [Vector.cross_matrix, Matrix.matmulV, Vector.cross, Vector.mk.injEq]
      refine ⟨by ring, by ring, by ring⟩

/-- Claim C4: for every matrix `M`, `M.det` equals the first-row cofactor
expansion `xx*(yy*zz - zy*yz) - xy*(yx*zz - zx*yz) + xz*(yx*zy - zx*yy)`;
in particular `Matrix([[1,2,3],[4,5,6],[7,8,9]]).det` equals exactly `0`. -/
theorem det_eq_cofactor_expansion :
    (∀ A : Matrix,
      A.det = A.xx * (A.yy * A.zz - A.zy * A.yz) - A.xy * (A.yx * A.zz - A.zx * A.yz)
        + A.xz * (A.yx * A.zy - A.zx * A.yy)) ∧
    Matrix.det ⟨1, 2, 3, 4, 5, 6, 7, 8, 9⟩ = 0 := by
  constructor
  · intro A
    simp only [Matrix.det]
    ring
  · norm_num [Matrix.det]

/-- Claim C8: for all vectors `u` and `v`, the cross product is
anticommutative, `u.cross(v) = -(v.cross(u))`, and the dot product is
commutative, `u.dot(v) = v.dot(u)`. -/
theorem cross_anticomm_dot_comm (u v : Vector) :
    u.cross v = (v.cross u).neg ∧ u.dot v = v.dot u := by
  cases u with
  | mk ux uy uz =>
    cases v with
    | mk vx vy vz =>
      constructor
      · simp only [Vector.cross, Vector.neg, Vector.mk.injEq]
        refine ⟨by ring, by ring, by ring⟩
      · simp only [Vector.dot]
        ring

/-- Claim C6: `Matrix.transformation` applied to the identity quaternion
`(1,0,0,0)` yields `Matrix.identity()`, and for every 4-tuple `(w,x,y,z)` the
construction is exactly the standard quaternion-to-rotation-matrix formula;
no normalization or validation of the quaternion is performed. -/
theorem transformation_identity_and_formula :
    Matrix.transformation (1, 0, 0, 0) = Matrix.identity ∧
    ∀ w x y z : ℚ,
      Matrix.transformation (w, x, y, z) =
        ⟨1 - 2 * (y ^ 2 + z ^ 2), 2 * (x * y - w * z), 2 * (x * z + w * y),
         2 * (x * y + w * z), 1 - 2 * (x ^ 2 + z ^ 2), 2 * (y * z - w * x),
         2 * (x * z - w * y), 2 * (y * z + w * x), 1 - 2 * (x ^ 2 + y ^ 2)⟩ := by
  constructor
  · simp only [Matrix.transformation, Matrix.identity, Matrix.mk.injEq]
    norm_num
  · intro w x y z
    rfl

/-- Claim C7: `Matrix.__matmul__` is polymorphic: on a `Matrix` operand it is
the standard 3x3 matrix product, on a `Vector` operand it is the matrix-vector
product (a `Vector`), and on any other operand it fails with a `TypeError`,
with no silent coercion. -/
theorem matmul_polymorphic :
    (∀ A B : Matrix, A.matmul (.matArg B) = .matRes (matProdStd A B)) ∧
    (∀ (A : Matrix) (v : Vector), A.matmul (.vecArg v) = .vecRes (matVecStd A v)) ∧
    (∀ A : Matrix, A.matmul .otherArg = .typeError) := by
  refine ⟨fun A B => ?_, fun A v => ?_, fun A => rfl⟩
  · simp only [Matrix.matmul, MatMulRes.matRes.injEq, matProdStd, Matrix.ofFn,
      Fin.sum_univ_three, Matrix.entry, Matrix.matmulM]
  · simp only [Matrix.matmul, MatMulRes.vecRes.injEq, matVecStd, Vector.ofFn,
      Fin.sum_univ_three, Matrix.entry, Vector.entry, Matrix.matmulV]

/-- Claim C9: for every matrix `M` and every negative integer `n`, `M ** n`
returns `Matrix.identity()` without raising any error: the exponent is not
validated and the repeated-product loop runs zero times. -/
theorem pow_neg_eq_identity (A : Matrix) (n : ℤ) (h : n < 0) :
    A.pow n = Matrix.identity := by
  have hz : n.toNat = 0 := Int.toNat_of_nonpos (le_of_lt h)
  simp [Matrix.pow, hz]

/-- Witness for C9: `Matrix([[1,2,3],[4,5,6],[7,8,9]]) ** (-1)` is the
identity matrix. -/
theorem pow_neg_eq_identity_witness :
    Matrix.pow ⟨1, 2, 3, 4, 5, 6, 7, 8, 9⟩ (-1) = Matrix.identity :=
  pow_neg_eq_identity ⟨1, 2, 3, 4, 5, 6, 7, 8, 9⟩ (-1) (by norm_num)

/-- Tolerance equality of a matrix with itself always holds. -/
theorem eqMat_refl (A : Matrix) : Matrix.eqMat A A = true := by
  simp [Matrix.eqMat, isclose, eqTol]

/-- Claim C3: for every non-singular matrix `M` (determinant nonzero),
`M @ M.inverse` equals `Matrix.identity()` within the absolute tolerance
`1e-9` of matrix equality; and inverting a singular matrix fails with the
division-by-zero error, which propagates to the caller (`none`). -/
theorem inverse_right_inverse_and_singular (A : Matrix) :
    (A.det ≠ 0 → ∃ N, A.inverse = some N ∧
      Matrix.eqMat (A.matmulM N) Matrix.identity = true) ∧
    (A.det = 0 → A.inverse = none) := by
  constructor
  · intro hdet
    refine ⟨_, by rw [Matrix.inverse, if_neg hdet], ?_⟩
    have hexact : A.matmulM
        ⟨(A.yy * A.zz - A.zy * A.yz) / A.det, (A.zy * A.xz - A.xy * A.zz) / A.det,
         (A.xy * A.yz - A.yy * A.xz) / A.det,
         (A.zx * A.yz - A.yx * A.zz) / A.det, (A.xx * A.zz - A.zx * A.xz) / A.det,
         (A.yx * A.xz - A.yz * A.xx) / A.det,
         (A.yx * A.zy - A.zx * A.yy) / A.det, (A.zx * A.xy - A.xx * A.zy) / A.det,
         (A.xx * A.yy - A.yx * A.xy) / A.det⟩ = Matrix.identity := by
      simp only [Matrix.matmulM, Matrix.identity, Matrix.mk.injEq]
      refine ⟨?_, ?_, ?_, ?_, ?_, ?_, ?_, ?_, ?_⟩ <;>
        field_simp <;> simp only [Matrix.det] at hdet ⊢ <;> ring
    rw [hexact]
    exact eqMat_refl Matrix.identity
  · intro hdet
    rw [Matrix.inverse, if_pos hdet]

/-- Witness for C3: a concrete non-singular matrix whose product with its
inverse is tolerance-equal to the identity, and the concrete singular matrix
`[[1,2,3],[4,5,6],[7,8,9]]` on which inversion fails. -/
theorem inverse_right_inverse_and_singular_witness :
    (∃ N, Matrix.inverse ⟨2, 0, 0, 0, 3, 0, 0, 0, 4⟩ = some N ∧
      Matrix.eqMat (Matrix.matmulM ⟨2, 0, 0, 0, 3, 0, 0, 0, 4⟩ N)
        Matrix.identity = true) ∧
    Matrix.inverse ⟨1, 2, 3, 4, 5, 6, 7, 8, 9⟩ = none :=
  ⟨(inverse_right_inverse_and_singular ⟨2, 0, 0, 0, 3, 0, 0, 0, 4⟩).1
      (by norm_num [Matrix.det]),
   (inverse_right_inverse_and_singular ⟨1, 2, 3, 4, 5, 6, 7, 8, 9⟩).2
      (by norm_num [Matrix.det])⟩

/-- Claim C2, evaluated on a failing input: the matrix
`[[1, 1e-7, 0], [0, 1, 0], [0, 0, 1]]` is reported diagonal by `is_diagonal`
(its off-diagonal entries are within the `1e-6` tolerance) and has nonzero
diagonal, yet `inverse` does NOT return the matrix of reciprocals of the
diagonal (here the identity): the code takes the adjugate-over-determinant
path unconditionally and yields `-1e-7` in position `(0, 1)`, which is not
even tolerance-equal to the reciprocal matrix. -/
theorem inverse_lacks_diagonal_fast_path :
    Matrix.is_diagonal ⟨1, 1 / 10000000, 0, 0, 1, 0, 0, 0, 1⟩ = true ∧
    Matrix.inverse ⟨1, 1 / 10000000, 0, 0, 1, 0, 0, 0, 1⟩ =
      some ⟨1, -(1 / 10000000), 0, 0, 1, 0, 0, 0, 1⟩ ∧
    Matrix.eqMat ⟨1, -(1 / 10000000), 0, 0, 1, 0, 0, 0, 1⟩
      ⟨1 / 1, 0, 0, 0, 1 / 1, 0, 0, 0, 1 / 1⟩ = false := by
  refine ⟨?_, ?_, ?_⟩
  · simp [Matrix.is_diagonal, diagTol]
    norm_num [abs_le]
  · rw [Matrix.inverse, if_neg (by norm_num [Matrix.det])]
    simp only [Option.some.injEq, Matrix.mk.injEq, Matrix.det]
    norm_num
  · simp [Matrix.eqMat, isclose, eqTol]
    norm_num [lt_abs]

/-- Counterexample to C5 as stated: the vector `(1e-9, 0, 0)` is `==` to
`(0,0,0)` under the component-wise absolute tolerance `1e-9`, yet its
magnitude is not zero — so `magnitude(v) == 0` does not follow from
`v == (0,0,0)`. -/
theorem magnitude_zero_tolerance_counterexample :
    Vector.eqList ⟨1 / 1000000000, 0, 0⟩ [0, 0, 0] = true ∧
    Vector.magnitude ⟨1 / 1000000000, 0, 0⟩ ≠ 0 := by
  constructor
  · simp [Vector.eqList, isclose, eqTol]
    norm_num [abs_le]
  · simp only [Vector.magnitude]
    intro hc
    rw [Real.sqrt_eq_zero (by positivity)] at hc
    norm_num at hc

/-- Claim C5, amended: for all vectors `v`, `magnitude(v)` is non-negative,
and `magnitude(v) = 0` holds if and only if `v` is exactly the zero vector
`(0,0,0)` (tolerance-based equality to the zero vector does not suffice). -/
theorem magnitude_nonneg_and_zero_iff_exact_zero (v : Vector) :
    0 ≤ v.magnitude ∧ (v.magnitude = 0 ↔ v = Vector.zeros) := by
  refine ⟨Real.sqrt_nonneg _, ?_⟩
  rw [Vector.magnitude, Real.sqrt_eq_zero (by positivity)]
  constructor
  · intro hsum
    have hx2 : (v.x : ℝ) ^ 2 = 0 := by
      nlinarith [sq_nonneg (v.y : ℝ), sq_nonneg (v.z : ℝ)]
    have hy2 : (v.y : ℝ) ^ 2 = 0 := by
      nlinarith [sq_nonneg (v.x : ℝ), sq_nonneg (v.z : ℝ)]
    have hz2 : (v.z : ℝ) ^ 2 = 0 := by
      nlinarith [sq_nonneg (v.x : ℝ), sq_nonneg (v.y : ℝ)]
    have hx : v.x = 0 := by
      have := pow_eq_zero_iff (n := 2) (by norm_num) |>.mp hx2
      exact_mod_cast this
    have hy : v.y = 0 := by
      have := pow_eq_zero_iff (n := 2) (by norm_num) |>.mp hy2
      exact_mod_cast this
    have hz : v.z = 0 := by
      have := pow_eq_zero_iff (n := 2) (by norm_num) |>.mp hz2
      exact_mod_cast this
    cases v
    simp only [Vector.zeros, Vector.mk.injEq]
    exact ⟨hx, hy, hz⟩
  · intro hv
    rw [hv]
    norm_num [Vector.zeros]

/-- One step of the `Matrix.__eq__` chain on a successful index access is the
conjunction of the local `isclose` with the rest. -/
theorem andIsclose_some (a b : ℚ) (r : Bool) :
    andIsclose a (some b) (some r) = some (isclose a b && r) := by
  cases hab : isclose a b <;> simp [andIsclose, hab]

/-- Claim C10: `Vector.__eq__` and `Matrix.__eq__` are duck-typed over the
right operand: against any length-3 sequence the result is true iff each
component is within absolute tolerance `1e-9` of the corresponding entry
(false when some component differs beyond the tolerance), and against a
sequence whose length is not 3 the result is false; likewise for `Matrix`
against any 3x3 nested sequence. -/
theorem eq_duck_typed :
    (∀ (v : Vector) (a b c : ℚ),
       v.eqList [a, b, c] = (isclose v.x a && isclose v.y b && isclose v.z c)) ∧
    (∀ (v : Vector) (s : List ℚ), s.length ≠ 3 → v.eqList s = false) ∧
    (∀ (A : Matrix) (a b c d e f g h i : ℚ),
       A.eqList [[a, b, c], [d, e, f], [g, h, i]] =
         some (isclose A.xx a && (isclose A.xy b && (isclose A.xz c &&
           (isclose A.yx d && (isclose A.yy e && (isclose A.yz f &&
             (isclose A.zx g && (isclose A.zy h && isclose A.zz i))))))))) ∧
    (∀ (A : Matrix) (s : List (List ℚ)), s.length ≠ 3 → A.eqList s = some false) := by
  refine ⟨fun v a b c => rfl, fun v s hs => ?_, fun A a b c d e f g h i => ?_,
    fun A s hs => ?_⟩
  · rcases s with _ | ⟨a, _ | ⟨b, _ | ⟨c, _ | ⟨d, t⟩⟩⟩⟩ <;>
      first | rfl | exact absurd rfl hs
  · simp only [Matrix.eqList, List.getElem?_cons_zero, List.getElem?_cons_succ,
      andIsclose_some, Bool.and_true]
  · rcases s with _ | ⟨r0, _ | ⟨r1, _ | ⟨r2, _ | ⟨r3, t⟩⟩⟩⟩ <;>
      first | rfl | exact absurd rfl hs

/-- Witness for C10: equality against too-short operands returns false for a
concrete vector and a concrete matrix. -/
theorem eq_duck_typed_witness :
    Vector.eqList ⟨1, 2, 3⟩ [1, 2] = false ∧
    Matrix.eqList ⟨1, 2, 3, 4, 5, 6, 7, 8, 9⟩ [] = some false :=
  ⟨eq_duck_typed.2.1 ⟨1, 2, 3⟩ [1, 2] (by simp),
   eq_duck_typed.2.2.2 ⟨1, 2, 3, 4, 5, 6, 7, 8, 9⟩ [] (by simp)⟩

end RocketPy
